import Mathlib

/-!
Verification of the k8s metrics scraper (metrics_scraper.py).

Shallow embedding: each Python function relevant to the claims is translated
into an executable Lean definition.  Kubernetes API calls are modelled as
inputs: a per-kind cluster query either succeeds with the full item list
(`some items`) or raises (`none`), matching the Python client whose list call
returns a materialized object or throws.  Dict fields that may be absent or
None are modelled as `Option (Option Nat)` (outer: key present, inner: value
not None).  Outbound PagerDuty calls are modelled by an outcome oracle.
-/

set_option autoImplicit false

/-- ASCII lowercasing, modelling str.lower() on the ASCII identifiers used
for kinds and names (Char.toLower lowers exactly the ASCII range). -/
def lowerStr (s : String) : String :=
  String.mk (s.data.map Char.toLower)

/-- One character of the regex class [a-zA-Z0-9]. -/
def isHashChar (c : Char) : Bool :=
  c.isAlpha || c.isDigit

/-- Core of remove_replicaset_hash on the character list: the regex
-[a-zA-Z0-9]+$ matches iff the maximal trailing alphanumeric run is nonempty
and is immediately preceded by a hyphen; re.sub deletes that single match. -/
def removeHashAux (cs : List Char) : List Char :=
  match (cs.reverse).takeWhile isHashChar, (cs.reverse).dropWhile isHashChar with
  | [], _ => cs
  | _ :: _, '-' :: rest => rest.reverse
  | _ :: _, _ => cs

/-- remove_replicaset_hash: strip one trailing "-<alphanumeric>" segment if
present, otherwise return the name unchanged. -/
def removeReplicasetHash (s : String) : String :=
  String.mk (removeHashAux s.data)

/-- One watch.json item: kind may be absent (or empty, both default to
"Deployment"); namespace and name are required. -/
structure WatchEntry where
  kindField : Option String
  ns : String
  name : String
deriving DecidableEq

/-- (item.get "kind" or "Deployment").lower() -/
def entryKind (e : WatchEntry) : String :=
  lowerStr (match e.kindField with
    | none => "Deployment"
    | some k => if k = "" then "Deployment" else k)

/-- The dict kind -> set of (namespace, name), as an association list whose
values are duplicate-free pair lists. -/
def addPair (s : List (String × String)) (p : String × String) : List (String × String) :=
  if p ∈ s then s else s ++ [p]

/-- setdefault(kind, set()).add(pair) on the association list. -/
def updateAssoc : List (String × List (String × String)) → String → String × String →
    List (String × List (String × String))
  | [], k, p => [(k, [p])]
  | (k0, s) :: rest, k, p =>
    if k0 = k then (k0, addPair s p) :: rest
    else (k0, s) :: updateAssoc rest k p

/-- dict lookup. -/
def lookupKind : List (String × List (String × String)) → String →
    Option (List (String × String))
  | [], _ => none
  | (k0, s) :: rest, k => if k0 = k then some s else lookupKind rest k

/-- watch_pairs_by_kind.get(k), with absence conflated with the empty set
exactly as Python's `if pairs:` truthiness test does. -/
def pairsFor (m : List (String × List (String × String))) (k : String) :
    List (String × String) :=
  (lookupKind m k).getD []

/-- The __init__ loop building watch_pairs_by_kind. -/
def buildPairsByKind (entries : List WatchEntry) : List (String × List (String × String)) :=
  entries.foldl (fun m e => updateAssoc m (entryKind e) (e.ns, e.name)) []

/-- watched_namespaces: every namespace mentioned by any watch entry. -/
def watchedNamespaces (entries : List WatchEntry) : List String :=
  entries.map (fun e => e.ns)

/-- _is_watched: lowercase the kind; if its pair set is non-empty require
exact (namespace, name) membership, otherwise fall back to namespace-only
filtering. -/
def isWatched (entries : List WatchEntry) (kind ns name : String) : Bool :=
  if pairsFor (buildPairsByKind entries) (lowerStr kind) = [] then
    decide (ns ∈ watchedNamespaces entries)
  else decide ((ns, name) ∈ pairsFor (buildPairsByKind entries) (lowerStr kind))

/-- Direct characterization of the pairs configured for a (lowercased) kind,
read straight off the entry list; compared against the built dict. -/
def kindPairs (entries : List WatchEntry) (k : String) : List (String × String) :=
  entries.filterMap (fun e => if entryKind e = k then some (e.ns, e.name) else none)

/-- The uniform metric record (the dict shared by all collectors), restricted
to the fields the evaluator and the claims read.  desired/available/ready use
Option (Option Nat): none = key absent, some none = value None. -/
structure Metric where
  name : String
  ns : String
  mtype : String
  desired : Option (Option Nat)
  available : Option (Option Nat)
  ready : Option (Option Nat)
deriving DecidableEq

/-- metric.get('desired_replicas', 0) or 0 -/
def desiredVal (m : Metric) : Nat :=
  (m.desired.getD (some 0)).getD 0

/-- metric.get('available_replicas', 0) or 0 -/
def availableVal (m : Metric) : Nat :=
  (m.available.getD (some 0)).getD 0

/-- Cluster-reported Deployment, restricted to the fields the collector reads. -/
structure DeploymentM where
  name : String
  ns : String
  specReplicas : Option Nat
  availableReplicas : Option Nat
  readyReplicas : Option Nat
deriving DecidableEq

def deploymentMetric (d : DeploymentM) : Metric :=
  { name := d.name, ns := d.ns, mtype := "deployment",
    desired := some (some (d.specReplicas.getD 0)),
    available := some (some (d.availableReplicas.getD 0)),
    ready := some (some (d.readyReplicas.getD 0)) }

/-- get_deployment_metrics: the query either returns all deployments or
raises; a raised query is caught and yields the empty list. -/
def getDeploymentMetrics (entries : List WatchEntry) (q : Option (List DeploymentM)) :
    List Metric :=
  match q with
  | none => []
  | some ds => ds.filterMap fun d =>
      if isWatched entries "deployment" d.ns d.name then some (deploymentMetric d) else none

/-- Cluster-reported ReplicaSet. -/
structure ReplicaSetM where
  name : String
  ns : String
  specReplicas : Option Nat
  availableReplicas : Option Nat
  readyReplicas : Option Nat
deriving DecidableEq

/-- Per-ReplicaSet body of get_replicaset_metrics: skip unless watched or in
a watched namespace; then skip scaled-to-zero sets. -/
def replicasetMetricOf (entries : List WatchEntry) (rs : ReplicaSetM) : Option Metric :=
  if ¬ isWatched entries "replicaset" rs.ns rs.name = true ∧
      rs.ns ∉ watchedNamespaces entries then none
  else
    if rs.specReplicas.getD 0 = 0 then none
    else some
      { name := rs.name, ns := rs.ns, mtype := "replicaset",
        desired := some (some (rs.specReplicas.getD 0)),
        available := some (some (rs.availableReplicas.getD 0)),
        ready := some (some (rs.readyReplicas.getD 0)) }

def getReplicasetMetrics (entries : List WatchEntry) (q : Option (List ReplicaSetM)) :
    List Metric :=
  match q with
  | none => []
  | some l => l.filterMap (replicasetMetricOf entries)

/-- Cluster-reported DaemonSet status (status None modelled as all-none). -/
structure DaemonSetM where
  name : String
  ns : String
  desiredNumberScheduled : Option Nat
  currentNumberScheduled : Option Nat
  numberReady : Option Nat
  updatedNumberScheduled : Option Nat
  numberMisscheduled : Option Nat
deriving DecidableEq

def daemonsetMetric (d : DaemonSetM) : Metric :=
  { name := d.name, ns := d.ns, mtype := "daemonset",
    desired := some (some (d.desiredNumberScheduled.getD 0)),
    available := some (some (d.numberReady.getD 0)),
    ready := some (some (d.numberReady.getD 0)) }

def getDaemonsetMetrics (entries : List WatchEntry) (q : Option (List DaemonSetM)) :
    List Metric :=
  match q with
  | none => []
  | some ds => ds.filterMap fun d =>
      if isWatched entries "daemonset" d.ns d.name then some (daemonsetMetric d) else none

/-- Cluster-reported StatefulSet. -/
structure StatefulSetM where
  name : String
  ns : String
  specReplicas : Option Nat
  readyReplicas : Option Nat
  currentReplicas : Option Nat
  updatedReplicas : Option Nat
deriving DecidableEq

def statefulsetMetric (s : StatefulSetM) : Metric :=
  { name := s.name, ns := s.ns, mtype := "statefulset",
    desired := some (some (s.specReplicas.getD 0)),
    available := some (some (s.readyReplicas.getD 0)),
    ready := some (some (s.readyReplicas.getD 0)) }

def getStatefulsetMetrics (entries : List WatchEntry) (q : Option (List StatefulSetM)) :
    List Metric :=
  match q with
  | none => []
  | some l => l.filterMap fun s =>
      if isWatched entries "statefulset" s.ns s.name then some (statefulsetMetric s) else none

/-- Cluster-reported CronJob (spec/status None collapse to the none fields). -/
structure CronJobM where
  name : String
  ns : String
  suspend : Option Bool
  lastSuccessfulTime : Option String
deriving DecidableEq

/-- An owner reference of a Job. -/
structure OwnerRefM where
  kind : String
  name : String
deriving DecidableEq

/-- A Job as read by the collector: metadata.name, owner references
(absent/None modelled as []), status.failed (status or field None → none). -/
structure JobM where
  name : String
  ownerRefs : List OwnerRefM
  failed : Option Nat
deriving DecidableEq

/-- A Pod as read by the collector: labels (None modelled as []) and
status.phase. -/
structure PodM where
  labels : List (String × String)
  phase : Option String
deriving DecidableEq

/-- Number of owner references of this job matching kind "CronJob" and the
schedule's name (the inner `for ref` loop visits each match once). -/
def ownRefCount (cjName : String) (j : JobM) : Nat :=
  j.ownerRefs.countP (fun r => decide (r.kind = "CronJob" ∧ r.name = cjName))

/-- The failed_jobs tally: one increment per matching owner reference of a
job whose status.failed (or 0) is positive. -/
def failedJobsCount (cjName : String) : List JobM → Nat
  | [] => 0
  | j :: rest =>
    (if 0 < j.failed.getD 0 then ownRefCount cjName j else 0) + failedJobsCount cjName rest

/-- The job_names list: one append per matching owner reference. -/
def jobNames (cjName : String) : List JobM → List String
  | [] => []
  | j :: rest => List.replicate (ownRefCount cjName j) j.name ++ jobNames cjName rest

/-- pod.metadata.labels.get("job-name") -/
def podJobLabel (p : PodM) : Option String :=
  List.lookup "job-name" p.labels

/-- labels.get("job-name") in job_name_set (None is never in the set). -/
def podLabelInNames (names : List String) (p : PodM) : Bool :=
  match podJobLabel p with
  | some v => decide (v ∈ names)
  | none => false

/-- (pod.status.phase or "").lower() in ("failed", "unknown") -/
def isBadPhase (p : PodM) : Bool :=
  decide (lowerStr (p.phase.getD "") = "failed" ∨ lowerStr (p.phase.getD "") = "unknown")

/-- The failed_pods tally over a pod list. -/
def failedPodsCount (names : List String) (ps : List PodM) : Nat :=
  ps.countP (fun p => podLabelInNames names p && isBadPhase p)

/-- failed_jobs for one CronJob: an error listing jobs (none) is caught and
leaves the tally at zero. -/
def cronjobFailedJobs (cj : CronJobM) (jq : Option (List JobM)) : Nat :=
  match jq with
  | some js => failedJobsCount cj.name js
  | none => 0

/-- job_names for one CronJob under the same error policy. -/
def cronjobJobNames (cj : CronJobM) (jq : Option (List JobM)) : List String :=
  match jq with
  | some js => jobNames cj.name js
  | none => []

/-- failed_pods: pods are only listed when some owned job name was found; an
error listing pods (none) is caught and leaves the tally at zero. -/
def cronjobFailedPods (cj : CronJobM) (jq : Option (List JobM))
    (pq : Option (List PodM)) : Nat :=
  if cronjobJobNames cj jq = [] then 0
  else
    match pq with
    | some ps => failedPodsCount (cronjobJobNames cj jq) ps
    | none => 0

/-- healthy = (not suspended) and (last_success_iso is not None) and
(failed_jobs == 0) and (failed_pods == 0) -/
def cronjobHealthy (cj : CronJobM) (jq : Option (List JobM))
    (pq : Option (List PodM)) : Bool :=
  (!(cj.suspend.getD false)) && cj.lastSuccessfulTime.isSome &&
  decide (cronjobFailedJobs cj jq = 0) && decide (cronjobFailedPods cj jq pq = 0)

/-- The metric record appended for one CronJob. -/
def cronjobMetric (cj : CronJobM) (jq : Option (List JobM))
    (pq : Option (List PodM)) : Metric :=
  { name := cj.name, ns := cj.ns, mtype := "cronjob",
    desired := some (some (if cj.suspend.getD false then 0 else 1)),
    available := some (some (if cronjobHealthy cj jq pq then 1 else 0)),
    ready := some (some (if cronjobHealthy cj jq pq then 1 else 0)) }

/-- get_cronjob_metrics: the per-namespace job and pod sub-queries are part
of the environment; a failing top-level cronjob query yields the empty list. -/
def getCronjobMetrics (entries : List WatchEntry) (q : Option (List CronJobM))
    (jobsEnv : String → Option (List JobM)) (podsEnv : String → Option (List PodM)) :
    List Metric :=
  match q with
  | none => []
  | some cjs => cjs.filterMap fun cj =>
      if isWatched entries "cronjob" cj.ns cj.name then
        some (cronjobMetric cj (jobsEnv cj.ns) (podsEnv cj.ns))
      else none

/-- Both send_pagerduty_alert and send_pagerduty_resolve derive the dedup key
this way from the resource key. -/
def pdDedupKey (resourceKey : String) : String :=
  "k8s-zero-replicas-" ++ resourceKey

/-- The classification an evaluator iteration produces for one metric. -/
inductive EventAction where
  | trigger
  | resolve
deriving DecidableEq

/-- One PagerDuty event: the trigger carries the (mutated) metric record as
custom_details; the resolve carries only the dedup key. -/
structure AlertEvent where
  action : EventAction
  dedupKey : String
  resourceKey : String
  rtype : String
  detail : Option Metric
deriving DecidableEq

/-- metric['name'] = remove_replicaset_hash(metric['name']) -/
def normalizeMetric (m : Metric) : Metric :=
  { m with name := removeReplicasetHash m.name }

/-- One iteration of the evaluate_and_notify loop, split into its pure part:
the classified event (if any) and the metric record as it is left in the
caller's list. -/
def processMetric (m : Metric) : Option AlertEvent × Metric :=
  if desiredVal m = 0 then (none, m)
  else
    let m' := normalizeMetric m
    let key := m'.ns ++ "/" ++ m'.name
    if availableVal m = 0 then
      (some { action := EventAction.trigger, dedupKey := pdDedupKey key,
              resourceKey := key, rtype := m'.mtype, detail := some m' }, m')
    else
      (some { action := EventAction.resolve, dedupKey := pdDedupKey key,
              resourceKey := key, rtype := m'.mtype, detail := none }, m')

/-- All events classified in one run, in metric order. -/
def evaluateEvents (ms : List Metric) : List AlertEvent :=
  ms.filterMap fun m => (processMetric m).1

/-- The metric list as evaluate_and_notify leaves it (name fields mutated in
place). -/
def updatedMetrics (ms : List Metric) : List Metric :=
  ms.map fun m => (processMetric m).2

/-- Outcome of one outbound PagerDuty call: success, a transport error, or a
non-success HTTP response (raise_for_status). -/
inductive SendOutcome where
  | ok
  | transportErr
  | badResponse
deriving DecidableEq

/-- send_pagerduty_alert: posts once; any failure is caught and reported as
False, success as True. -/
def sendPagerdutyAlert (o : SendOutcome) : Bool :=
  match o with
  | SendOutcome.ok => true
  | SendOutcome.transportErr => false
  | SendOutcome.badResponse => false

/-- send_pagerduty_resolve: same contract. -/
def sendPagerdutyResolve (o : SendOutcome) : Bool :=
  match o with
  | SendOutcome.ok => true
  | SendOutcome.transportErr => false
  | SendOutcome.badResponse => false

/-- Result of the evaluate_and_notify loop: the trigger/resolve success
tallies, the events attempted (one outbound call each), and the metric list
as left behind. -/
structure NotifyRes where
  triggers : Nat
  resolves : Nat
  attempted : List AlertEvent
  metricsOut : List Metric
deriving DecidableEq

/-- evaluate_and_notify over the metric list, with the outcome of the n-th
outbound call given by the oracle. -/
def notifyLoop (o : Nat → SendOutcome) : Nat → List Metric → NotifyRes
  | _, [] => ⟨0, 0, [], []⟩
  | i, m :: rest =>
    match processMetric m with
    | (none, m0) =>
      let r := notifyLoop o i rest
      ⟨r.triggers, r.resolves, r.attempted, m0 :: r.metricsOut⟩
    | (some e, m') =>
      let ok := match e.action with
        | EventAction.trigger => sendPagerdutyAlert (o i)
        | EventAction.resolve => sendPagerdutyResolve (o i)
      let r := notifyLoop o (i + 1) rest
      match e.action with
      | EventAction.trigger =>
        ⟨if ok then r.triggers + 1 else r.triggers, r.resolves,
         e :: r.attempted, m' :: r.metricsOut⟩
      | EventAction.resolve =>
        ⟨r.triggers, if ok then r.resolves + 1 else r.resolves,
         e :: r.attempted, m' :: r.metricsOut⟩

/-- run(): concatenate the five collectors in source order. -/
def runCollect (entries : List WatchEntry)
    (depQ : Option (List DeploymentM)) (rsQ : Option (List ReplicaSetM))
    (dsQ : Option (List DaemonSetM)) (ssQ : Option (List StatefulSetM))
    (cjQ : Option (List CronJobM)) (jobsEnv : String → Option (List JobM))
    (podsEnv : String → Option (List PodM)) : List Metric :=
  getDeploymentMetrics entries depQ ++ getReplicasetMetrics entries rsQ ++
  getDaemonsetMetrics entries dsQ ++ getStatefulsetMetrics entries ssQ ++
  getCronjobMetrics entries cjQ jobsEnv podsEnv

/-- A job is owned by the schedule when some owner reference has kind
"CronJob" and the schedule's name. -/
def ownedByCronjob (cjName : String) (j : JobM) : Prop :=
  ∃ r ∈ j.ownerRefs, r.kind = "CronJob" ∧ r.name = cjName

/-! Helper lemmas. -/

theorem removeHashAux_no_hyphen (cs : List Char) (h : '-' ∉ cs) :
    removeHashAux cs = cs := by
  unfold removeHashAux
  split
  · rfl
  · rename_i h1 h2
    exfalso
    apply h
    rw [← List.mem_reverse]
    have hsub : List.Sublist (List.dropWhile isHashChar cs.reverse) cs.reverse :=
      List.dropWhile_sublist _
    refine hsub.subset ?_
    rw [h2]
    exact List.mem_cons_self '-' _
  · rfl

theorem notifyLoop_attempted (o : Nat → SendOutcome) (i : Nat) (ms : List Metric) :
    (notifyLoop o i ms).attempted = evaluateEvents ms := by
  induction ms generalizing i with
  | nil => rfl
  | cons m rest ih =>
    rcases hp : processMetric m with ⟨oe, m2⟩
    cases oe with
    | none => simp [notifyLoop, hp, evaluateEvents, List.filterMap_cons, ih]
    | some e =>
      cases he : e.action <;>
        simp [notifyLoop, hp, he, evaluateEvents, List.filterMap_cons, ih]

theorem notifyLoop_metricsOut (o : Nat → SendOutcome) (i : Nat) (ms : List Metric) :
    (notifyLoop o i ms).metricsOut = updatedMetrics ms := by
  induction ms generalizing i with
  | nil => rfl
  | cons m rest ih =>
    rcases hp : processMetric m with ⟨oe, m2⟩
    cases oe with
    | none => simp [notifyLoop, hp, updatedMetrics, ih]
    | some e =>
      cases he : e.action <;> simp [notifyLoop, hp, he, updatedMetrics, ih]

/-! Claim theorems. -/

/-- C4 counterexample: name normalization is not idempotent on every name.
Normalizing "a-b-c" yields "a-b", and normalizing the already-normalized
"a-b" yields "a", so a second application changes the result. -/
theorem normalize_not_idempotent :
    removeReplicasetHash "a-b-c" = "a-b" ∧
    removeReplicasetHash (removeReplicasetHash "a-b-c") = "a" ∧
    removeReplicasetHash (removeReplicasetHash "a-b-c") ≠ removeReplicasetHash "a-b-c" := by
  decide

/-- C4 (amended): normalization strips exactly one trailing
"-<alphanumeric>" segment per application: normalizing "api-7f8b9c" yields
"api" and normalizing "api" (no suffix pattern) yields "api" unchanged; it
is idempotent on hyphen-free names (it leaves them unchanged), but not on
every name. -/
theorem normalize_once_examples :
    removeReplicasetHash "api-7f8b9c" = "api" ∧
    removeReplicasetHash "api" = "api" ∧
    ∀ s : String, '-' ∉ s.data →
      removeReplicasetHash s = s ∧
      removeReplicasetHash (removeReplicasetHash s) = removeReplicasetHash s := by
  refine ⟨by decide, by decide, ?_⟩
  intro s hs
  have h1 : removeReplicasetHash s = s := by
    unfold removeReplicasetHash
    rw [removeHashAux_no_hyphen s.data hs]
  exact ⟨h1, by rw [h1]; exact h1⟩

/-- C4 witness: the idempotence part of the amended claim at the
hyphen-free name "xyz". -/
theorem normalize_once_examples_witness :
    removeReplicasetHash (removeReplicasetHash "xyz") = removeReplicasetHash "xyz" :=
  (normalize_once_examples.2.2 "xyz" (by decide)).2

/-- C1: the evaluator produces no event when desired_replicas is 0, exactly
one trigger when desired is positive and available is 0, and exactly one
resolve when both are positive; trigger and resolve for the same resource
carry the identical dedup key "k8s-zero-replicas-<namespace>/<normalized
name>" (pdDedupKey of the namespace/normalized-name resource key). -/
theorem evaluate_classification (m : Metric) :
    (desiredVal m = 0 → (processMetric m).1 = none) ∧
    (desiredVal m ≠ 0 → availableVal m = 0 →
      (processMetric m).1 = some
        { action := EventAction.trigger,
          dedupKey := pdDedupKey (m.ns ++ "/" ++ removeReplicasetHash m.name),
          resourceKey := m.ns ++ "/" ++ removeReplicasetHash m.name,
          rtype := m.mtype, detail := some (normalizeMetric m) }) ∧
    (desiredVal m ≠ 0 → availableVal m ≠ 0 →
      (processMetric m).1 = some
        { action := EventAction.resolve,
          dedupKey := pdDedupKey (m.ns ++ "/" ++ removeReplicasetHash m.name),
          resourceKey := m.ns ++ "/" ++ removeReplicasetHash m.name,
          rtype := m.mtype, detail := none }) := by
  refine ⟨?_, ?_, ?_⟩
  · intro h; simp [processMetric, h]
  · intro h1 h2; simp [processMetric, h1, h2, normalizeMetric]
  · intro h1 h2; simp [processMetric, h1, h2, normalizeMetric]

/-- C1 witness: a concrete unhealthy deployment metric yields the trigger
event with the fully evaluated dedup key. -/
theorem evaluate_classification_witness :
    (processMetric ⟨"web-5d8f", "prod", "deployment", some (some 3), some (some 0),
        some (some 0)⟩).1 =
      some ⟨EventAction.trigger, "k8s-zero-replicas-prod/web", "prod/web", "deployment",
        some ⟨"web", "prod", "deployment", some (some 3), some (some 0), some (some 0)⟩⟩ := by
  have h := (evaluate_classification
    ⟨"web-5d8f", "prod", "deployment", some (some 3), some (some 0), some (some 0)⟩).2.1
    (by decide) (by decide)
  rw [h]
  decide

/-- C9: for a record with positive desired count the evaluator overwrites the
record's name with its normalized value (the caller's list ends up holding
the mutated record), and the trigger event's structured detail is exactly
that mutated record; a record with desired 0 is left unmodified. -/
theorem evaluate_mutates_name (m : Metric) :
    (desiredVal m = 0 → (processMetric m).1 = none ∧ (processMetric m).2 = m) ∧
    (desiredVal m ≠ 0 →
      (processMetric m).2 = normalizeMetric m ∧
      (processMetric m).2.name = removeReplicasetHash m.name ∧
      (availableVal m = 0 →
        ∃ e, (processMetric m).1 = some e ∧ e.detail = some (normalizeMetric m))) ∧
    (∀ (o : Nat → SendOutcome) (i : Nat) (ms : List Metric),
      (notifyLoop o i ms).metricsOut = updatedMetrics ms) := by
  refine ⟨?_, ?_, notifyLoop_metricsOut⟩
  · intro h; exact ⟨by simp [processMetric, h], by simp [processMetric, h]⟩
  · intro h
    refine ⟨?_, ?_, ?_⟩
    · by_cases h2 : availableVal m = 0 <;> simp [processMetric, h, h2]
    · by_cases h2 : availableVal m = 0 <;> simp [processMetric, h, h2, normalizeMetric]
    · intro h2
      have hp : (processMetric m).1 = some
          { action := EventAction.trigger,
            dedupKey := pdDedupKey (m.ns ++ "/" ++ removeReplicasetHash m.name),
            resourceKey := m.ns ++ "/" ++ removeReplicasetHash m.name,
            rtype := m.mtype, detail := some (normalizeMetric m) } := by
        simp [processMetric, h, h2, normalizeMetric]
      exact ⟨_, hp, rfl⟩

/-- C9 witness: the hash-suffixed name "api-7f8b9c" is rewritten to "api" in
the record left in the list, and the trigger detail carries it. -/
theorem evaluate_mutates_name_witness :
    (processMetric ⟨"api-7f8b9c", "prod", "deployment", some (some 2), some (some 0),
        some (some 0)⟩).2.name = "api" ∧
    ∃ e, (processMetric ⟨"api-7f8b9c", "prod", "deployment", some (some 2), some (some 0),
        some (some 0)⟩).1 = some e ∧
      e.detail = some (normalizeMetric ⟨"api-7f8b9c", "prod", "deployment", some (some 2),
        some (some 0), some (some 0)⟩) := by
  have h := (evaluate_mutates_name ⟨"api-7f8b9c", "prod", "deployment", some (some 2),
    some (some 0), some (some 0)⟩).2.1 (by decide)
  exact ⟨by rw [h.2.1]; decide, h.2.2 (by decide)⟩

/-- C10 counterexample: a record whose 'desired_replicas' key is present with
value 0 while 'available_replicas' is absent produces no event at all; the
claim as stated classifies every desired-present, available-absent record as
a trigger. -/
theorem missing_available_not_trigger :
    (processMetric ⟨"web", "prod", "deployment", some (some 0), none, none⟩).1 = none ∧
    evaluateEvents [⟨"web", "prod", "deployment", some (some 0), none, none⟩] = [] := by
  decide

/-- C10 (amended): absent or None 'desired_replicas'/'available_replicas'
fields are substituted by 0 and never raise; a record whose desired field is
absent or None is silently ignored, and a record with desired present and
nonzero but available absent or None is classified as a trigger. -/
theorem evaluator_defaults_missing_fields (m : Metric) :
    ((m.desired = none ∨ m.desired = some none) →
      desiredVal m = 0 ∧ (processMetric m).1 = none ∧ (processMetric m).2 = m) ∧
    ((m.available = none ∨ m.available = some none) → availableVal m = 0) ∧
    (∀ n : Nat, m.desired = some (some n) → n ≠ 0 →
      (m.available = none ∨ m.available = some none) →
      ∃ e, (processMetric m).1 = some e ∧ e.action = EventAction.trigger) := by
  refine ⟨?_, ?_, ?_⟩
  · intro h
    have hd : desiredVal m = 0 := by
      rcases h with h | h <;> simp [desiredVal, h]
    exact ⟨hd, by simp [processMetric, hd], by simp [processMetric, hd]⟩
  · intro h
    rcases h with h | h <;> simp [availableVal, h]
  · intro n hd hn ha
    have h1 : desiredVal m ≠ 0 := by simp [desiredVal, hd]; exact hn
    have h2 : availableVal m = 0 := by
      rcases ha with h | h <;> simp [availableVal, h]
    have hp : (processMetric m).1 = some
        { action := EventAction.trigger,
          dedupKey := pdDedupKey (m.ns ++ "/" ++ removeReplicasetHash m.name),
          resourceKey := m.ns ++ "/" ++ removeReplicasetHash m.name,
          rtype := m.mtype, detail := some (normalizeMetric m) } := by
      simp [processMetric, h1, h2, normalizeMetric]
    exact ⟨_, hp, rfl⟩

/-- C10 witness: a record with desired 3 and the available key absent is
classified as a trigger. -/
theorem evaluator_defaults_missing_fields_witness :
    ∃ e, (processMetric ⟨"web", "prod", "deployment", some (some 3), none, none⟩).1 = some e ∧
      e.action = EventAction.trigger :=
  (evaluator_defaults_missing_fields
    ⟨"web", "prod", "deployment", some (some 3), none, none⟩).2.2 3 rfl
    (by decide) (Or.inl rfl)

/-- C8: each dispatch returns a boolean success indicator (failure outcomes
are caught and reported as false, never raised), and the sequence of events
attempted — and the metric list left behind — is the same for every outcome
oracle: a failed outbound call does not stop processing of the remaining
events in the run. -/
theorem dispatch_isolation (o : Nat → SendOutcome) (i : Nat) (ms : List Metric) :
    (notifyLoop o i ms).attempted = evaluateEvents ms ∧
    (notifyLoop o i ms).metricsOut = updatedMetrics ms ∧
    sendPagerdutyAlert SendOutcome.ok = true ∧
    sendPagerdutyAlert SendOutcome.transportErr = false ∧
    sendPagerdutyAlert SendOutcome.badResponse = false ∧
    sendPagerdutyResolve SendOutcome.ok = true ∧
    sendPagerdutyResolve SendOutcome.transportErr = false ∧
    sendPagerdutyResolve SendOutcome.badResponse = false :=
  ⟨notifyLoop_attempted o i ms, notifyLoop_metricsOut o i ms, rfl, rfl, rfl, rfl, rfl, rfl⟩

/-- C7: every collector turns a failed cluster query into the empty metric
list for its kind (never an exception), and a DaemonSet collection failure
leaves the Deployment, ReplicaSet, StatefulSet and ScheduledJob metrics of
the same run unchanged. -/
theorem collector_fault_isolation (entries : List WatchEntry)
    (depQ : Option (List DeploymentM)) (rsQ : Option (List ReplicaSetM))
    (ssQ : Option (List StatefulSetM)) (cjQ : Option (List CronJobM))
    (jobsEnv : String → Option (List JobM)) (podsEnv : String → Option (List PodM)) :
    getDeploymentMetrics entries none = [] ∧
    getReplicasetMetrics entries none = [] ∧
    getDaemonsetMetrics entries none = [] ∧
    getStatefulsetMetrics entries none = [] ∧
    getCronjobMetrics entries none jobsEnv podsEnv = [] ∧
    runCollect entries depQ rsQ none ssQ cjQ jobsEnv podsEnv =
      getDeploymentMetrics entries depQ ++ getReplicasetMetrics entries rsQ ++
      getStatefulsetMetrics entries ssQ ++ getCronjobMetrics entries cjQ jobsEnv podsEnv := by
  refine ⟨rfl, rfl, rfl, rfl, rfl, ?_⟩
  simp [runCollect, getDaemonsetMetrics]

/-- C6: an error listing a schedule's jobs behaves exactly like finding no
jobs, an error listing pods behaves exactly like finding no pods (zero
additional failures, tallies found before the error are kept, nothing is
raised), and sub-lookup errors alone never make a schedule unhealthy. -/
theorem cronjob_sublookup_errors (cj : CronJobM) (js : List JobM)
    (pq : Option (List PodM)) :
    cronjobMetric cj none pq = cronjobMetric cj (some []) pq ∧
    cronjobMetric cj (some js) none = cronjobMetric cj (some js) (some []) ∧
    (cj.suspend.getD false = false → cj.lastSuccessfulTime.isSome = true →
      availableVal (cronjobMetric cj none none) = 1) := by
  refine ⟨rfl, ?_, ?_⟩
  · simp [cronjobMetric, cronjobHealthy, cronjobFailedPods, failedPodsCount]
  · intro h1 h2
    simp [cronjobMetric, availableVal, cronjobHealthy, cronjobFailedJobs,
      cronjobFailedPods, cronjobJobNames, failedJobsCount, jobNames, h1, h2]

/-- C6 witness: a live schedule with a recorded success whose job and pod
lookups both fail is still reported healthy. -/
theorem cronjob_sublookup_errors_witness :
    availableVal (cronjobMetric ⟨"nightly", "ops", some false, some "t0"⟩ none none) = 1 :=
  (cronjob_sublookup_errors ⟨"nightly", "ops", some false, some "t0"⟩ [] none).2.2 rfl rfl

/-- C5: a ReplicaSet yields a metric iff it passes the special-cased filter
(exact watch match OR namespace fallback) and its desired replica count is
positive; a scaled-to-zero ReplicaSet is skipped entirely, so it produces
neither a trigger nor a resolve. -/
theorem replicaset_filter_iff (entries : List WatchEntry) (rs : ReplicaSetM) :
    ((replicasetMetricOf entries rs).isSome = true ↔
      ((isWatched entries "replicaset" rs.ns rs.name = true ∨
        rs.ns ∈ watchedNamespaces entries) ∧ 0 < rs.specReplicas.getD 0)) ∧
    (rs.specReplicas.getD 0 = 0 →
      evaluateEvents (getReplicasetMetrics entries (some [rs])) = []) := by
  constructor
  · unfold replicasetMetricOf
    split_ifs with hc hd
    · simp only [Option.isSome_none, Bool.false_eq_true, false_iff]
      rintro ⟨hab, -⟩
      rcases hab with ha | hb
      · exact hc.1 ha
      · exact hc.2 hb
    · simp [hd]
    · simp only [Option.isSome_some, true_iff]
      constructor
      · by_cases ha : isWatched entries "replicaset" rs.ns rs.name = true
        · exact Or.inl ha
        · exact Or.inr (by_contra fun hb => hc ⟨ha, hb⟩)
      · exact Nat.pos_of_ne_zero hd
  · intro h2
    by_cases hc : ¬ isWatched entries "replicaset" rs.ns rs.name = true ∧
        rs.ns ∉ watchedNamespaces entries
    · simp [evaluateEvents, getReplicasetMetrics, replicasetMetricOf, hc]
    · simp [evaluateEvents, getReplicasetMetrics, replicasetMetricOf, hc, h2]

/-- C5 witness: a ReplicaSet in a watched namespace with positive desired
count is collected. -/
theorem replicaset_filter_iff_witness :
    (replicasetMetricOf [⟨none, "prod", "web"⟩]
      ⟨"web-abc", "prod", some 2, some 2, some 2⟩).isSome = true :=
  (replicaset_filter_iff [⟨none, "prod", "web"⟩]
    ⟨"web-abc", "prod", some 2, some 2, some 2⟩).1.mpr ⟨Or.inr (by decide), by decide⟩

/-! Watch-filter lemmas: the built dict agrees with the direct per-kind
reading of the entry list. -/

theorem mem_addPair (s : List (String × String)) (p q : String × String) :
    q ∈ addPair s p ↔ q ∈ s ∨ q = p := by
  by_cases h : p ∈ s
  · rw [addPair, if_pos h]
    constructor
    · exact Or.inl
    · rintro (hq | rfl)
      · exact hq
      · exact h
  · rw [addPair, if_neg h]
    simp

theorem addPair_ne_nil (s : List (String × String)) (p : String × String) :
    addPair s p ≠ [] := by
  by_cases h : p ∈ s
  · rw [addPair, if_pos h]
    exact List.ne_nil_of_mem h
  · rw [addPair, if_neg h]
    simp

theorem pairsFor_updateAssoc :
    ∀ (m : List (String × List (String × String))) (k : String) (p : String × String)
      (k' : String),
    pairsFor (updateAssoc m k p) k' =
      if k = k' then addPair (pairsFor m k') p else pairsFor m k'
  | [], k, p, k' => by
    by_cases h : k = k' <;> simp [updateAssoc, pairsFor, lookupKind, h, addPair]
  | (k0, s) :: rest, k, p, k' => by
    by_cases h0 : k0 = k
    · subst h0
      by_cases h1 : k0 = k'
      · subst h1
        simp [updateAssoc, pairsFor, lookupKind]
      · simp [updateAssoc, pairsFor, lookupKind, h1]
    · by_cases h1 : k0 = k'
      · subst h1
        have h2 : ¬ k = k0 := fun hh => h0 hh.symm
        simp [updateAssoc, pairsFor, lookupKind, h0, h2]
      · have ih := pairsFor_updateAssoc rest k p k'
        have e1 : updateAssoc ((k0, s) :: rest) k p = (k0, s) :: updateAssoc rest k p := by
          simp [updateAssoc, h0]
        have e2 : ∀ t, pairsFor ((k0, s) :: t) k' = pairsFor t k' := by
          intro t
          simp [pairsFor, lookupKind, h1]
        simp only [e1, e2, ih]

theorem mem_pairsFor_foldl :
    ∀ (es : List WatchEntry) (m : List (String × List (String × String)))
      (k : String) (p : String × String),
    p ∈ pairsFor (es.foldl (fun acc e => updateAssoc acc (entryKind e) (e.ns, e.name)) m) k ↔
      p ∈ pairsFor m k ∨ p ∈ kindPairs es k
  | [], m, k, p => by simp [kindPairs]
  | e :: es, m, k, p => by
    have ih := mem_pairsFor_foldl es (updateAssoc m (entryKind e) (e.ns, e.name)) k p
    rw [List.foldl_cons, ih, pairsFor_updateAssoc]
    by_cases he : entryKind e = k
    · rw [if_pos he]
      simp only [kindPairs, List.filterMap_cons, if_pos he, List.mem_cons, mem_addPair]
      tauto
    · rw [if_neg he]
      simp only [kindPairs, List.filterMap_cons, if_neg he]

theorem pairsFor_foldl_eq_nil :
    ∀ (es : List WatchEntry) (m : List (String × List (String × String))) (k : String),
    pairsFor (es.foldl (fun acc e => updateAssoc acc (entryKind e) (e.ns, e.name)) m) k = [] ↔
      pairsFor m k = [] ∧ kindPairs es k = []
  | [], m, k => by simp [kindPairs]
  | e :: es, m, k => by
    have ih := pairsFor_foldl_eq_nil es (updateAssoc m (entryKind e) (e.ns, e.name)) k
    rw [List.foldl_cons, ih, pairsFor_updateAssoc]
    by_cases he : entryKind e = k
    · rw [if_pos he]
      simp [kindPairs, List.filterMap_cons, he, addPair_ne_nil]
    · rw [if_neg he]
      simp [kindPairs, List.filterMap_cons, he]

/-- C2: isWatched lowercases the kind; when at least one watch entry is
configured for that kind the result is exact membership of (namespace, name)
among that kind's configured pairs, and when none is, the result is whether
the namespace appears among all watched namespaces. -/
theorem isWatched_characterization (entries : List WatchEntry) (kind ns name : String) :
    (kindPairs entries (lowerStr kind) ≠ [] →
      (isWatched entries kind ns name = true ↔
        (ns, name) ∈ kindPairs entries (lowerStr kind))) ∧
    (kindPairs entries (lowerStr kind) = [] →
      (isWatched entries kind ns name = true ↔ ns ∈ watchedNamespaces entries)) := by
  have hmem : ((ns, name) ∈ pairsFor (buildPairsByKind entries) (lowerStr kind)) ↔
      (ns, name) ∈ kindPairs entries (lowerStr kind) := by
    rw [buildPairsByKind, mem_pairsFor_foldl]
    simp [pairsFor, lookupKind]
  have hnil : (pairsFor (buildPairsByKind entries) (lowerStr kind) = []) ↔
      kindPairs entries (lowerStr kind) = [] := by
    rw [buildPairsByKind, pairsFor_foldl_eq_nil]
    simp [pairsFor, lookupKind]
  constructor
  · intro hk
    have hb : ¬ pairsFor (buildPairsByKind entries) (lowerStr kind) = [] :=
      fun hcontr => hk (hnil.mp hcontr)
    simp only [isWatched]
    rw [if_neg hb, decide_eq_true_iff]
    exact hmem
  · intro hk
    have hb : pairsFor (buildPairsByKind entries) (lowerStr kind) = [] := hnil.mpr hk
    simp only [isWatched]
    rw [if_pos hb, decide_eq_true_iff]

/-- C2 witness: with one daemonset entry, that kind matches exactly and an
unconfigured kind falls back to the watched namespaces. -/
theorem isWatched_characterization_witness :
    isWatched [⟨some "daemonset", "ns1", "foo"⟩] "daemonset" "ns1" "foo" = true ∧
    isWatched [⟨some "daemonset", "ns1", "foo"⟩] "deployment" "ns1" "anything" = true :=
  ⟨((isWatched_characterization [⟨some "daemonset", "ns1", "foo"⟩] "daemonset"
      "ns1" "foo").1 (by decide)).mpr (by decide),
   ((isWatched_characterization [⟨some "daemonset", "ns1", "foo"⟩] "deployment"
      "ns1" "anything").2 (by decide)).mpr (by decide)⟩

/-! ScheduledJob health lemmas. -/

theorem ownRefCount_eq_zero (cjName : String) (j : JobM) :
    ownRefCount cjName j = 0 ↔ ¬ ownedByCronjob cjName j := by
  rw [ownRefCount, List.countP_eq_zero]
  simp [ownedByCronjob]

theorem failedJobsCount_eq_zero (cjName : String) (js : List JobM) :
    failedJobsCount cjName js = 0 ↔
      ∀ j ∈ js, ownedByCronjob cjName j → j.failed.getD 0 = 0 := by
  induction js with
  | nil => simp [failedJobsCount]
  | cons j rest ih =>
    rw [failedJobsCount, Nat.add_eq_zero, ih]
    constructor
    · rintro ⟨h1, h2⟩ j' hj' hown
      rw [List.mem_cons] at hj'
      rcases hj' with rfl | hj'
      · by_contra hf
        rw [if_pos (Nat.pos_of_ne_zero hf)] at h1
        exact ((ownRefCount_eq_zero _ _).mp h1) hown
      · exact h2 j' hj' hown
    · intro hall
      refine ⟨?_, fun j' hj' => hall j' (List.mem_cons.mpr (Or.inr hj'))⟩
      by_cases hpos : 0 < j.failed.getD 0
      · rw [if_pos hpos, ownRefCount_eq_zero]
        intro hown
        exact absurd (hall j (List.mem_cons_self j rest) hown)
          (Nat.pos_iff_ne_zero.mp hpos)
      · rw [if_neg hpos]

theorem mem_jobNames (cjName : String) (js : List JobM) (v : String) :
    v ∈ jobNames cjName js ↔ ∃ j ∈ js, ownedByCronjob cjName j ∧ v = j.name := by
  induction js with
  | nil => simp [jobNames]
  | cons j rest ih =>
    simp only [jobNames, List.mem_append, List.mem_replicate, ih,
      List.exists_mem_cons_iff, Ne, ownRefCount_eq_zero, not_not]

theorem jobNames_eq_nil (cjName : String) (js : List JobM) :
    jobNames cjName js = [] ↔ ∀ j ∈ js, ¬ ownedByCronjob cjName j := by
  rw [List.eq_nil_iff_forall_not_mem]
  constructor
  · intro h j hj hown
    exact h j.name ((mem_jobNames _ _ _).mpr ⟨j, hj, hown, rfl⟩)
  · intro h v hv
    obtain ⟨j, hj, hown, rfl⟩ := (mem_jobNames _ _ _).mp hv
    exact h j hj hown

theorem podLabelInNames_iff (names : List String) (p : PodM) :
    podLabelInNames names p = true ↔ ∃ v, podJobLabel p = some v ∧ v ∈ names := by
  cases hl : podJobLabel p <;> simp [podLabelInNames, hl]

theorem failedPodsCount_eq_zero (names : List String) (ps : List PodM) :
    failedPodsCount names ps = 0 ↔
      ∀ p ∈ ps, podLabelInNames names p = true → isBadPhase p = false := by
  rw [failedPodsCount, List.countP_eq_zero]
  constructor
  · intro h p hp hl
    simpa [hl] using h p hp
  · intro h p hp
    simp only [Bool.and_eq_true, not_and]
    intro hl
    simp [h p hp hl]

/-- C3: a scheduled job's metric has desired = 1 unless suspended (then 0),
and available = 1 exactly when all four health conditions hold — not
suspended, a recorded last-successful time, no owned execution with a
positive failure count, and no pod of an owned execution in a failed or
unknown phase; otherwise available = 0. -/
theorem cronjob_metric_health (cj : CronJobM) (js : List JobM) (ps : List PodM) :
    desiredVal (cronjobMetric cj (some js) (some ps)) =
      (if cj.suspend.getD false then 0 else 1) ∧
    (availableVal (cronjobMetric cj (some js) (some ps)) = 1 ↔
      (cj.suspend.getD false = false ∧
       cj.lastSuccessfulTime.isSome = true ∧
       (∀ j ∈ js, ownedByCronjob cj.name j → j.failed.getD 0 = 0) ∧
       (∀ p ∈ ps, (∃ j ∈ js, ownedByCronjob cj.name j ∧ podJobLabel p = some j.name) →
         isBadPhase p = false))) ∧
    (availableVal (cronjobMetric cj (some js) (some ps)) = 0 ∨
     availableVal (cronjobMetric cj (some js) (some ps)) = 1) := by
  have havail : availableVal (cronjobMetric cj (some js) (some ps)) = 1 ↔
      cronjobHealthy cj (some js) (some ps) = true := by
    cases h : cronjobHealthy cj (some js) (some ps) <;>
      simp [availableVal, cronjobMetric, h]
  have hjs : cronjobFailedJobs cj (some js) = failedJobsCount cj.name js := rfl
  have hfp : cronjobFailedPods cj (some js) (some ps) = 0 ↔
      (∀ p ∈ ps, (∃ j ∈ js, ownedByCronjob cj.name j ∧ podJobLabel p = some j.name) →
        isBadPhase p = false) := by
    have hnames : cronjobJobNames cj (some js) = jobNames cj.name js := rfl
    rw [cronjobFailedPods, hnames]
    by_cases hn : jobNames cj.name js = []
    · rw [if_pos hn]
      constructor
      · intro _ p hp hex
        obtain ⟨j, hj, hown, _⟩ := hex
        exact absurd hown ((jobNames_eq_nil cj.name js).mp hn j hj)
      · intro _
        rfl
    · rw [if_neg hn, failedPodsCount_eq_zero]
      constructor
      · intro h p hp hex
        obtain ⟨j, hj, hown, hl⟩ := hex
        exact h p hp ((podLabelInNames_iff _ _).mpr
          ⟨j.name, hl, (mem_jobNames _ _ _).mpr ⟨j, hj, hown, rfl⟩⟩)
      · intro h p hp hl
        obtain ⟨v, hv, hvin⟩ := (podLabelInNames_iff _ _).mp hl
        obtain ⟨j, hj, hown, hveq⟩ := (mem_jobNames _ _ _).mp hvin
        subst hveq
        exact h p hp ⟨j, hj, hown, hv⟩
  refine ⟨rfl, ?_, ?_⟩
  · rw [havail, cronjobHealthy]
    simp only [Bool.and_eq_true, Bool.not_eq_true', decide_eq_true_eq]
    rw [hjs, failedJobsCount_eq_zero, hfp]
    tauto
  · cases h : cronjobHealthy cj (some js) (some ps) <;>
      simp [availableVal, cronjobMetric, h]

/-- C3 witness: a live schedule with a recorded success, no owned jobs and no
pods is healthy. -/
theorem cronjob_metric_health_witness :
    availableVal (cronjobMetric ⟨"nightly", "ops", some false, some "t0"⟩
      (some []) (some [])) = 1 :=
  (cronjob_metric_health ⟨"nightly", "ops", some false, some "t0"⟩ [] []).2.1.mpr
    ⟨rfl, rfl, by simp, by simp⟩
